import Mathlib

/-! # Verification of agent-level credential configuration

Shallow embedding of `src/core/framework/credentials/agent_config.py`:
an `AgentCredentialConfig` dataclass holding a provider → integration-id
dictionary, loaded from and saved to `<agent_path>/credentials.json`.

Modelling choices:
* Python dicts with string keys become association lists with Python-dict
  semantics: unique keys, insertion order kept, `d[k] = v` overwrites in
  place, `del d[k]` removes the entry, `d.get(k)` is an optional lookup.
* The JSON text file is modelled at the level of its parsed value
  (`Json` below): the spec places the JSON serialization format itself
  out of scope ("standard, unmodified"), so `json.dumps`/`json.loads`
  round-tripping of values is taken as given and the file content is the
  parsed value.  JSON numbers are modelled as integers; no claim depends
  on numeric content.  A `Json.obj` carries the entries of the dict that
  `json.loads` produced (duplicate source keys already collapsed).
* Exceptions become `Except PyError`.  `load` catches exactly
  `json.JSONDecodeError` and `OSError`; `AttributeError` (from calling
  `.get` on a non-dict) is not caught and therefore surfaces as an error
  value of the embedded `load`.
* Logging is ignored (no observable effect on the data).
-/

namespace AgentConfig

/-- Parsed JSON values, as produced by Python `json.loads`. -/
inductive Json where
  | null : Json
  | bool (b : Bool) : Json
  | num (n : Int) : Json
  | str (s : String) : Json
  | arr (elems : List Json) : Json
  | obj (fields : List (String × Json)) : Json

/-- Python dict lookup `d.get(k)` on an association list (keys unique,
so the first match is the only one). -/
def dictGet {α : Type} : List (String × α) → String → Option α
  | [], _ => none
  | (k, v) :: rest, q => if k = q then some v else dictGet rest q

/-- Python dict assignment `d[k] = v`: overwrite in place if the key is
present, append otherwise. -/
def dictSet {α : Type} : List (String × α) → String → α → List (String × α)
  | [], q, v => [(q, v)]
  | (k, w) :: rest, q, v =>
    if k = q then (q, v) :: rest else (k, w) :: dictSet rest q v

/-- Python membership test `k in d` on a dict. -/
def dictContains {α : Type} : List (String × α) → String → Bool
  | [], _ => false
  | (k, _) :: rest, q => k == q || dictContains rest q

/-- Python deletion `del d[k]` on a dict (keys are unique, so removing
every entry with the key equals removing the one entry). -/
def dictDel {α : Type} (d : List (String × α)) (q : String) : List (String × α) :=
  d.filter (fun p => p.1 != q)

/-- The `AgentCredentialConfig` dataclass: `agent_path : Path` and
`mappings : dict[str, str]` (default empty).  Paths are modelled as
strings. -/
structure AgentCredentialConfig where
  agent_path : String
  mappings : List (String × String)
deriving DecidableEq

/-- Exceptions that the embedded operations can raise. -/
inductive PyError where
  | attributeError : PyError
  | osError : PyError
deriving DecidableEq

/-- The state of the file `<agent_path>/credentials.json` as `load`
observes it. -/
inductive FileState where
  | absent : FileState
  | unreadable : FileState
  | malformed : FileState
  | valid (j : Json) : FileState

/-- The value `load` binds to `mappings` is `data.get("mappings", {})`
with no type check, so at runtime it can be any JSON value; `RawConfig`
is the instance `load` actually constructs, with that unconstrained
field. -/
structure RawConfig where
  agent_path : String
  mappings : Json

/-- `AgentCredentialConfig.load` (agent_config.py lines 48-69):
missing file → empty mapping; `OSError` from `read_text` and
`json.JSONDecodeError` from `json.loads` are caught (warning logged,
empty mapping kept); on a parsed JSON object, `data.get("mappings", {})`
extracts the raw value of the `mappings` key; on any other parsed JSON
value, `.get` raises `AttributeError`, which the `except` clause does
not catch. -/
def load (agent_path : String) (fs : FileState) : Except PyError RawConfig :=
  match fs with
  | .absent => .ok ⟨agent_path, .obj []⟩
  | .unreadable => .ok ⟨agent_path, .obj []⟩
  | .malformed => .ok ⟨agent_path, .obj []⟩
  | .valid (.obj fields) => .ok ⟨agent_path, (dictGet fields "mappings").getD (.obj [])⟩
  | .valid _ => .error .attributeError

/-- The JSON value of `{"mappings": self.mappings}` for a mapping of the
declared type `dict[str, str]`. -/
def encodeMappings (m : List (String × String)) : Json :=
  .obj (m.map fun p => (p.1, .str p.2))

/-- `AgentCredentialConfig.save` (agent_config.py lines 71-82): writes
`json.dumps({"mappings": self.mappings}, indent=2)` to
`<agent_path>/credentials.json` with `write_text`, which truncates and
fully replaces any existing file.  On `OSError` it logs and re-raises.
`writeOk` models whether the filesystem accepts the write; the method
body never assigns to `self`, so the instance is returned unchanged in
both branches.  (The file content after a failed write is not modelled
precisely; no theorem below depends on it.) -/
def save (c : AgentCredentialConfig) (writeOk : Bool) (fs : FileState) :
    Except PyError Unit × FileState × AgentCredentialConfig :=
  if writeOk then
    (.ok (), .valid (.obj [("mappings", encodeMappings c.mappings)]), c)
  else
    (.error .osError, fs, c)

/-- `get_integration_id` (lines 84-93): `self.mappings.get(provider)`. -/
def get_integration_id (c : AgentCredentialConfig) (provider : String) : Option String :=
  dictGet c.mappings provider

/-- `set_integration_id` (lines 95-102): the body is the single
statement `self.mappings[provider] = integration_id`; it performs no
file operation, so the file state passes through untouched. -/
def set_integration_id (c : AgentCredentialConfig) (provider integration_id : String)
    (fs : FileState) : AgentCredentialConfig × FileState :=
  ({ c with mappings := dictSet c.mappings provider integration_id }, fs)

/-- `remove_integration` (lines 104-116): if the provider is present,
delete it and return `True`; otherwise return `False`. -/
def remove_integration (c : AgentCredentialConfig) (provider : String) :
    Bool × AgentCredentialConfig :=
  if dictContains c.mappings provider then
    (true, { c with mappings := dictDel c.mappings provider })
  else
    (false, c)

/-- `list_mappings` (lines 118-120): `dict(self.mappings)` — the entries
of the mapping, as a fresh dict.  The value-level content is the
mapping itself; the freshness (object identity) aspect is modelled
separately in the heap model below. -/
def list_mappings (c : AgentCredentialConfig) : List (String × String) :=
  c.mappings

/-- `has_mapping` (lines 122-124): `provider in self.mappings`. -/
def has_mapping (c : AgentCredentialConfig) (provider : String) : Bool :=
  dictContains c.mappings provider

/-- Meaning function for a JSON value that is an object all of whose
values are strings: the `dict[str, str]` it denotes.  Used to relate the
raw value `load` produces back to the declared mapping type. -/
def decodeStrEntries : List (String × Json) → Option (List (String × String))
  | [] => some []
  | (k, Json.str s) :: rest => (decodeStrEntries rest).map (fun d => (k, s) :: d)
  | _ => none

/-- Meaning function on whole JSON values: defined exactly when the
value is an object with string values. -/
def decodeStrDict : Json → Option (List (String × String))
  | Json.obj fields => decodeStrEntries fields
  | _ => none

/-- Whether a JSON value is an object (a Python dict after parsing). -/
def Json.isObj : Json → Bool
  | .obj _ => true
  | _ => false

/-! ## Heap model for object identity

Python dicts are mutable objects on a heap; `dict(self.mappings)` in
`list_mappings` allocates a *new* dict object whose entries copy the
original's.  To state the "independent copy" claim faithfully we model a
heap of dict cells addressed by allocation index, and an instance that
holds a reference to its `mappings` dict. -/

/-- A heap of Python dict objects; the address of a cell is its index. -/
structure Heap where
  cells : List (List (String × String))

/-- Dereference a dict address. -/
def Heap.read (h : Heap) (a : Nat) : List (String × String) :=
  h.cells[a]?.getD []

/-- Allocate a fresh dict object holding `v`; returns the new heap and
the fresh address. -/
def Heap.alloc (h : Heap) (v : List (String × String)) : Heap × Nat :=
  (⟨h.cells ++ [v]⟩, h.cells.length)

/-- Mutate the dict object at address `a` (any in-place mutation of a
dict — item assignment, deletion, `update`, `clear` — replaces its
entries by some new list `v`). -/
def Heap.write (h : Heap) (a : Nat) (v : List (String × String)) : Heap :=
  ⟨h.cells.set a v⟩

/-- An `AgentCredentialConfig` instance in the heap model: it holds a
reference to its `mappings` dict object. -/
structure ConfigRef where
  agent_path : String
  mappingsRef : Nat

/-- `list_mappings` in the heap model: `dict(self.mappings)` reads the
instance's dict and allocates a fresh dict with the same entries,
returning its address. -/
def ConfigRef.list_mappings (c : ConfigRef) (h : Heap) : Heap × Nat :=
  h.alloc (h.read c.mappingsRef)

/-- `get_integration_id` in the heap model: reads the instance's dict
and looks the provider up; does not modify the heap. -/
def ConfigRef.get_integration_id (c : ConfigRef) (h : Heap) (provider : String) :
    Option String :=
  dictGet (h.read c.mappingsRef) provider

/-! ## Dictionary lemmas -/

theorem dictGet_dictSet_self {α : Type} (d : List (String × α)) (q : String) (v : α) :
    dictGet (dictSet d q v) q = some v := by
  induction d with
  | nil => simp [dictGet, dictSet]
  | cons p rest ih =>
    by_cases hk : p.1 = q
    · simp [dictSet, hk, dictGet]
    · simp [dictSet, hk, dictGet, ih]

theorem dictGet_dictSet_ne {α : Type} (d : List (String × α)) (q r : String) (v : α)
    (hqr : r ≠ q) : dictGet (dictSet d q v) r = dictGet d r := by
  induction d with
  | nil => simp [dictGet, dictSet, Ne.symm hqr]
  | cons p rest ih =>
    obtain ⟨k, w⟩ := p
    by_cases hk : k = q
    · subst hk
      simp [dictSet, dictGet, Ne.symm hqr]
    · simp [dictSet, dictGet, hk, ih]

theorem dictContains_eq_isSome_dictGet {α : Type} (d : List (String × α)) (q : String) :
    dictContains d q = (dictGet d q).isSome := by
  induction d with
  | nil => simp [dictContains, dictGet]
  | cons p rest ih =>
    by_cases hk : p.1 = q
    · simp [dictContains, dictGet, hk]
    · simp [dictContains, dictGet, hk, ih]

theorem dictGet_dictDel_self {α : Type} (d : List (String × α)) (q : String) :
    dictGet (dictDel d q) q = none := by
  induction d with
  | nil => rfl
  | cons p rest ih =>
    obtain ⟨k, w⟩ := p
    by_cases hk : k = q
    · simpa [dictDel, List.filter_cons, hk] using ih
    · simpa [dictDel, List.filter_cons, hk, dictGet] using ih

theorem dictContains_dictDel_self {α : Type} (d : List (String × α)) (q : String) :
    dictContains (dictDel d q) q = false := by
  rw [dictContains_eq_isSome_dictGet, dictGet_dictDel_self]
  rfl

theorem decodeStrEntries_encode (m : List (String × String)) :
    decodeStrEntries (m.map fun p => (p.1, Json.str p.2)) = some m := by
  induction m with
  | nil => rfl
  | cons p rest ih => simp [decodeStrEntries, ih]

/-! ## Claim theorems -/

/-- C1 counterexample: a file whose content is valid JSON with a
non-object top-level value (here the array `[]`) makes `load` raise:
`data.get("mappings", {})` raises `AttributeError` on a list, and the
`except (json.JSONDecodeError, OSError)` clause does not catch it.  The
claim says `load` never raises for any valid JSON value. -/
theorem load_raises_on_valid_nonobject_json :
    load "agent" (FileState.valid (Json.arr [])) = Except.error PyError.attributeError :=
  rfl

/-- C1 (amended): `load` never raises — and returns a usable instance —
for a missing, unreadable (OSError) or malformed-JSON file, and for any
valid JSON file whose top-level value is an object; for a valid JSON
file whose top-level value is not an object it raises `AttributeError`. -/
theorem load_never_raises_unless_valid_nonobject (p : String) (fs : FileState) :
    ((∀ j, fs = FileState.valid j → j.isObj = true) → ∃ c, load p fs = Except.ok c) ∧
    (∀ j, fs = FileState.valid j → j.isObj = false →
      load p fs = Except.error PyError.attributeError) := by
  constructor
  · intro hobj
    cases fs with
    | absent => exact ⟨_, rfl⟩
    | unreadable => exact ⟨_, rfl⟩
    | malformed => exact ⟨_, rfl⟩
    | valid j =>
      cases j with
      | obj fields => exact ⟨_, rfl⟩
      | null => exact absurd (hobj _ rfl) (by simp [Json.isObj])
      | bool b => exact absurd (hobj _ rfl) (by simp [Json.isObj])
      | num n => exact absurd (hobj _ rfl) (by simp [Json.isObj])
      | str s => exact absurd (hobj _ rfl) (by simp [Json.isObj])
      | arr elems => exact absurd (hobj _ rfl) (by simp [Json.isObj])
  · intro j hj hobj
    subst hj
    cases j with
    | obj fields => simp [Json.isObj] at hobj
    | null => rfl
    | bool b => rfl
    | num n => rfl
    | str s => rfl
    | arr elems => rfl

/-- Witness for the amended C1 theorem at concrete inputs: a malformed
file loads without raising, a valid JSON string file raises. -/
theorem load_never_raises_unless_valid_nonobject_witness :
    (∃ c, load "agent" FileState.malformed = Except.ok c) ∧
    load "agent" (FileState.valid (Json.str "x")) = Except.error PyError.attributeError :=
  ⟨(load_never_raises_unless_valid_nonobject "agent" FileState.malformed).1
      (fun _ h => nomatch h),
    (load_never_raises_unless_valid_nonobject "agent" (FileState.valid (Json.str "x"))).2
      (Json.str "x") rfl rfl⟩

/-- C2 counterexample: on the file `{"mappings": "oops"}` — valid JSON,
`mappings` key present but not a mapping — `load` keeps the raw value
`"oops"` as the instance's `mappings` (there is no `isinstance` check),
instead of the empty mapping the claim requires. -/
theorem load_keeps_nonmapping_value :
    load "agent" (FileState.valid (Json.obj [("mappings", Json.str "oops")])) =
      Except.ok ⟨"agent", Json.str "oops"⟩ ∧
    Json.str "oops" ≠ Json.obj [] :=
  ⟨rfl, fun h => Json.noConfusion h⟩

/-- C2 (amended): for a file that exists and parses as valid JSON whose
top-level value is an object, `load` returns an instance whose
`mappings` is the raw value of the top-level `mappings` key whenever the
key is present — whatever its type, with no validation — and the empty
mapping when the key is absent.  (For a non-object top-level value,
`load` raises; see the C1 theorems.) -/
theorem load_valid_object_extracts_raw_mappings (p : String)
    (fields : List (String × Json)) :
    (∀ v, dictGet fields "mappings" = some v →
      load p (FileState.valid (Json.obj fields)) = Except.ok ⟨p, v⟩) ∧
    (dictGet fields "mappings" = none →
      load p (FileState.valid (Json.obj fields)) = Except.ok ⟨p, Json.obj []⟩) := by
  constructor
  · intro v hv
    simp [load, hv]
  · intro hv
    simp [load, hv]

/-- Witness for the amended C2 theorem: a present non-dict value is kept
raw; an absent key yields the empty mapping. -/
theorem load_valid_object_extracts_raw_mappings_witness :
    load "a" (FileState.valid (Json.obj [("mappings", Json.num 5)])) =
      Except.ok ⟨"a", Json.num 5⟩ ∧
    load "a" (FileState.valid (Json.obj [("other", Json.null)])) =
      Except.ok ⟨"a", Json.obj []⟩ :=
  ⟨(load_valid_object_extracts_raw_mappings "a" [("mappings", Json.num 5)]).1
      (Json.num 5) rfl,
    (load_valid_object_extracts_raw_mappings "a" [("other", Json.null)]).2 rfl⟩

/-- C3: round-trip — when `save` succeeds, loading the written file
yields an instance whose raw `mappings` is exactly the saved JSON
object; that object decodes back (as a `dict[str, str]`) to the saved
mapping, so the loaded instance's `list_mappings` equals the saving
instance's `list_mappings` at save time. -/
theorem save_load_roundtrip (c : AgentCredentialConfig) (wk : Bool) (fs : FileState)
    (h : (save c wk fs).1 = Except.ok ()) :
    load c.agent_path (save c wk fs).2.1 =
      Except.ok ⟨c.agent_path, encodeMappings c.mappings⟩ ∧
    decodeStrDict (encodeMappings c.mappings) = some c.mappings ∧
    list_mappings ⟨c.agent_path, c.mappings⟩ = list_mappings c := by
  cases wk with
  | false => simp [save] at h
  | true =>
    refine ⟨?_, ?_, rfl⟩
    · simp [save, load, dictGet]
    · simp [decodeStrDict, encodeMappings, decodeStrEntries_encode]

/-- Witness for C3 at a concrete instance and file state. -/
theorem save_load_roundtrip_witness :
    (save ⟨"a", [("google", "X")]⟩ true FileState.absent).1 = Except.ok () ∧
    (load "a" (save ⟨"a", [("google", "X")]⟩ true FileState.absent).2.1 =
        Except.ok ⟨"a", encodeMappings [("google", "X")]⟩ ∧
      decodeStrDict (encodeMappings [("google", "X")]) = some [("google", "X")] ∧
      list_mappings ⟨"a", [("google", "X")]⟩ = list_mappings ⟨"a", [("google", "X")]⟩) :=
  ⟨rfl, save_load_roundtrip ⟨"a", [("google", "X")]⟩ true FileState.absent rfl⟩

/-- C4: a successful `save` replaces the file content with exactly the
JSON object `{"mappings": <the mapping>}`, independently of the previous
file state (full overwrite), and that object carries no key other than
`mappings`. -/
theorem save_writes_exactly_mappings (c : AgentCredentialConfig) (fs : FileState) :
    (save c true fs).2.1 =
      FileState.valid (Json.obj [("mappings", encodeMappings c.mappings)]) ∧
    ∀ k, k ≠ "mappings" → dictGet [("mappings", encodeMappings c.mappings)] k = none := by
  refine ⟨rfl, ?_⟩
  intro k hk
  simp [dictGet, Ne.symm hk]

/-- Witness for C4 at a concrete instance, prior file state and key. -/
theorem save_writes_exactly_mappings_witness :
    (save ⟨"a", [("google", "X")]⟩ true FileState.malformed).2.1 =
      FileState.valid (Json.obj [("mappings", encodeMappings [("google", "X")])]) ∧
    dictGet [("mappings", encodeMappings [("google", "X")])] "other" = none :=
  ⟨(save_writes_exactly_mappings ⟨"a", [("google", "X")]⟩ FileState.malformed).1,
    (save_writes_exactly_mappings ⟨"a", [("google", "X")]⟩ FileState.malformed).2
      "other" (by decide)⟩

/-- C5: a failed write makes `save` re-raise the `OSError` to the
caller, and the in-memory instance is returned unchanged (the method
body never assigns to `self`). -/
theorem save_failure_propagates (c : AgentCredentialConfig) (fs : FileState) :
    (save c false fs).1 = Except.error PyError.osError ∧
    (save c false fs).2.2 = c :=
  ⟨rfl, rfl⟩

/-- C6: loading a directory with no `credentials.json` returns an
instance with the empty mapping and raises no exception. -/
theorem load_absent_returns_empty (p : String) :
    load p FileState.absent = Except.ok ⟨p, Json.obj []⟩ :=
  rfl

/-- C7: `remove_integration` returns `True` exactly when the provider
was present; after a removal that returned `True`, `get_integration_id`
on that provider returns `None` and a second `remove_integration`
returns `False`. -/
theorem remove_integration_spec (c : AgentCredentialConfig) (provider : String) :
    ((remove_integration c provider).1 = true ↔ has_mapping c provider = true) ∧
    ((remove_integration c provider).1 = true →
      get_integration_id (remove_integration c provider).2 provider = none ∧
      (remove_integration (remove_integration c provider).2 provider).1 = false) := by
  by_cases hc : dictContains c.mappings provider
  · refine ⟨by simp [remove_integration, has_mapping, hc], fun _ => ⟨?_, ?_⟩⟩
    · simp [remove_integration, get_integration_id, hc, dictGet_dictDel_self]
    · simp [remove_integration, hc, dictContains_dictDel_self]
  · refine ⟨by simp [remove_integration, has_mapping, hc], fun h => absurd h ?_⟩
    simp [remove_integration, hc]

/-- Witness for C7 on a mapping containing the provider. -/
theorem remove_integration_spec_witness :
    get_integration_id (remove_integration ⟨"a", [("google", "X")]⟩ "google").2 "google" =
      none ∧
    (remove_integration (remove_integration ⟨"a", [("google", "X")]⟩ "google").2
        "google").1 = false :=
  (remove_integration_spec ⟨"a", [("google", "X")]⟩ "google").2 (by decide)

/-- C8: in the heap model, `list_mappings` returns a dict object that
(1) holds the same entries as the instance's mapping, (2) is a distinct
object from the instance's own dict, and (3) after any in-place
mutation of the returned dict, `get_integration_id` on the instance is
unchanged for every provider. -/
theorem list_mappings_independent_copy (c : ConfigRef) (h : Heap)
    (hvalid : c.mappingsRef < h.cells.length) :
    (c.list_mappings h).1.read (c.list_mappings h).2 = h.read c.mappingsRef ∧
    (c.list_mappings h).2 ≠ c.mappingsRef ∧
    ∀ (v : List (String × String)) (provider : String),
      ConfigRef.get_integration_id c
          ((c.list_mappings h).1.write (c.list_mappings h).2 v) provider =
        ConfigRef.get_integration_id c h provider := by
  refine ⟨?_, ?_, ?_⟩
  · simp [ConfigRef.list_mappings, Heap.alloc, Heap.read, List.getElem?_concat_length]
  · intro e
    exact absurd (e ▸ hvalid) (lt_irrefl _)
  · intro v provider
    have hne : (c.list_mappings h).2 ≠ c.mappingsRef := by
      intro e
      exact absurd (e ▸ hvalid) (lt_irrefl _)
    simp only [ConfigRef.get_integration_id, ConfigRef.list_mappings, Heap.alloc,
      Heap.write, Heap.read] at hne ⊢
    rw [List.getElem?_set_ne hne, List.getElem?_append_left hvalid]

/-- Witness for C8: a one-cell heap, concrete mutation and provider. -/
theorem list_mappings_independent_copy_witness :
    ConfigRef.get_integration_id ⟨"a", 0⟩
        ((ConfigRef.list_mappings ⟨"a", 0⟩ ⟨[[("google", "X")]]⟩).1.write
          (ConfigRef.list_mappings ⟨"a", 0⟩ ⟨[[("google", "X")]]⟩).2 [("new", "value")])
        "google" =
      ConfigRef.get_integration_id ⟨"a", 0⟩ ⟨[[("google", "X")]]⟩ "google" :=
  (list_mappings_independent_copy ⟨"a", 0⟩ ⟨[[("google", "X")]]⟩ (by decide)).2.2
    [("new", "value")] "google"

/-- C9: `set_integration_id` makes `get_integration_id` return the new
id for that provider, leaves every other provider's mapping unchanged,
and leaves the file state untouched (no filesystem write until
`save`). -/
theorem set_integration_id_spec (c : AgentCredentialConfig)
    (provider integration_id : String) (fs : FileState) :
    get_integration_id (set_integration_id c provider integration_id fs).1 provider =
      some integration_id ∧
    (∀ q, q ≠ provider →
      get_integration_id (set_integration_id c provider integration_id fs).1 q =
        get_integration_id c q) ∧
    (set_integration_id c provider integration_id fs).2 = fs := by
  refine ⟨?_, ?_, rfl⟩
  · simp [set_integration_id, get_integration_id, dictGet_dictSet_self]
  · intro q hq
    simp [set_integration_id, get_integration_id, dictGet_dictSet_ne _ _ _ _ hq]

/-- Witness for C9: setting `google` leaves `hubspot` untouched and the
file state unchanged. -/
theorem set_integration_id_spec_witness :
    get_integration_id
        (set_integration_id ⟨"a", [("hubspot", "Y")]⟩ "google" "new-id"
          FileState.absent).1 "google" = some "new-id" ∧
    get_integration_id
        (set_integration_id ⟨"a", [("hubspot", "Y")]⟩ "google" "new-id"
          FileState.absent).1 "hubspot" = some "Y" ∧
    (set_integration_id ⟨"a", [("hubspot", "Y")]⟩ "google" "new-id"
        FileState.absent).2 = FileState.absent := by
  obtain ⟨h1, h2, h3⟩ :=
    set_integration_id_spec ⟨"a", [("hubspot", "Y")]⟩ "google" "new-id" FileState.absent
  exact ⟨h1, by rw [h2 "hubspot" (by decide)]; rfl, h3⟩

/-- C10: `has_mapping` returns `true` exactly when `get_integration_id`
returns a present value; both are pure reads of the mapping (their
bodies perform no mutation, which the embedding reflects by their being
plain functions of the instance). -/
theorem has_mapping_iff_get_isSome (c : AgentCredentialConfig) (provider : String) :
    has_mapping c provider = true ↔ (get_integration_id c provider).isSome = true := by
  simp [has_mapping, get_integration_id, dictContains_eq_isSome_dictGet]

end AgentConfig
